import Mathlib

/-!
# Executor job-lease service and job-set subscription loop

A shallow embedding of `internal/executor/service/job_lease_service.go`
(the lease acquisition cycle and the renew/retire cycle of the executor) and of the
TTL-bounded subscription loop exercised by
`internal/jobservice/eventstojobs/eventstojobs_test.go`.

Conventions of the embedding:

* Go slices are Lean lists; `append` inside a `for ... range` loop is a left fold that
  appends at the end of the accumulator.
* Go maps keyed by strings are association lists updated with `mapSet` and read with
  `List.lookup`.
* `resource.Quantity` is an exact quantity, embedded as `Int`.
* Calls to collaborators (queue client, job submitter, cleanup service) and the printed
  failure reports are recorded, in program order, in a list of `Effect`s; what a
  collaborator answers is given by the fields of `JobLeaseService`.
-/

namespace Armada

/-! ## Kubernetes data model (the fields the service reads) -/

/-- Go type `v1.ResourceList`: resource name to quantity. -/
abbrev ResourceList := List (String × Int)

/-- Go type `v1.TaintEffect`, a string type. -/
abbrev TaintEffect := String

/-- Constant `v1.TaintEffectNoSchedule`. -/
def TaintEffectNoSchedule : TaintEffect := "NoSchedule"

/-- Constant `v1.TaintEffectPreferNoSchedule`. -/
def TaintEffectPreferNoSchedule : TaintEffect := "PreferNoSchedule"

/-- Constant `v1.TaintEffectNoExecute`. -/
def TaintEffectNoExecute : TaintEffect := "NoExecute"

/-- Go type `v1.Taint`. -/
structure Taint where
  Key : String
  Value : String
  Effect : TaintEffect
deriving DecidableEq, Repr

/-- Go type `v1.NodeSpec`. -/
structure NodeSpec where
  Unschedulable : Bool
  Taints : List Taint
deriving DecidableEq, Repr

/-- Go type `v1.NodeStatus`. -/
structure NodeStatus where
  Allocatable : ResourceList
deriving DecidableEq, Repr

/-- Go type `v1.Node`. -/
structure Node where
  Name : String
  Spec : NodeSpec
  Status : NodeStatus
deriving DecidableEq, Repr

/-- Go type `v1.PodPhase`, a string type. -/
abbrev PodPhase := String

/-- Constant `v1.PodPending`. -/
def PodPending : PodPhase := "Pending"

/-- Constant `v1.PodRunning`. -/
def PodRunning : PodPhase := "Running"

/-- Constant `v1.PodSucceeded`. -/
def PodSucceeded : PodPhase := "Succeeded"

/-- Constant `v1.PodFailed`. -/
def PodFailed : PodPhase := "Failed"

/-- Go type `v1.ResourceRequirements`. -/
structure ResourceRequirements where
  Limits : ResourceList
  Requests : ResourceList
deriving DecidableEq, Repr

/-- Go type `v1.Container`. -/
structure Container where
  Name : String
  Resources : ResourceRequirements
deriving DecidableEq, Repr

/-- Go type `v1.PodSpec`. -/
structure PodSpec where
  NodeName : String
  Containers : List Container
  InitContainers : List Container
deriving DecidableEq, Repr

/-- Go type `v1.PodStatus`. -/
structure PodStatus where
  Phase : PodPhase
deriving DecidableEq, Repr

/-- Go type `v1.Pod`. `JobId` is the job identifier the pod carries in its metadata, the
value `util.ExtractJobIds` reads. -/
structure Pod where
  Name : String
  JobId : String
  Spec : PodSpec
  Status : PodStatus
deriving DecidableEq, Repr

/-! ## Go maps -/

/-- Go map assignment `m[k] = v` on an association list: the first entry for `k` is
replaced, a new key is added at the end. -/
def mapSet {α : Type} : List (String × α) → String → α → List (String × α)
  | [], k, v => [(k, v)]
  | (k', v') :: rest, k, v =>
    if k' = k then (k, v) :: rest else (k', v') :: mapSet rest k v

/-- Go map presence test `_, present := m[k]`. -/
def mapPresent {α : Type} (m : List (String × α)) (k : String) : Bool :=
  (m.lookup k).isSome

/-! ## Resource vectors (package `common`) -/

/-- Modelled from the spec: the type `common.ComputeResources` (package `internal/common`),
a mapping from resource-kind name to a scalar quantity. -/
abbrev ComputeResources := List (String × Int)

namespace ComputeResources

/-- Modelled from the spec: reading a resource vector; unspecified keys are implicitly
zero. -/
def get (a : ComputeResources) (k : String) : Int :=
  (a.lookup k).getD 0

/-- Modelled from the spec: `common.ComputeResources.Add`, pointwise addition of `b` into
`a`; a key of `b` that `a` lacks is created with the value of `b`. -/
def Add (a b : ComputeResources) : ComputeResources :=
  b.foldl (fun acc kv =>
    match acc.lookup kv.1 with
    | some existing => mapSet acc kv.1 (existing + kv.2)
    | none => mapSet acc kv.1 kv.2) a

/-- Modelled from the spec: `common.ComputeResources.Sub`, pointwise subtraction of `b`
from `a`; the result may be negative (it is not clamped), and a key of `b` that `a`
lacks is created with the negated value. -/
def Sub (a b : ComputeResources) : ComputeResources :=
  b.foldl (fun acc kv =>
    match acc.lookup kv.1 with
    | some existing => mapSet acc kv.1 (existing - kv.2)
    | none => mapSet acc kv.1 (-kv.2)) a

/-- Modelled from the spec: `common.ComputeResources.DeepCopy`; values are immutable in the
embedding, so the copy is the vector itself. -/
def DeepCopy (a : ComputeResources) : ComputeResources := a

end ComputeResources

/-- Modelled from the spec: `common.FromResourceList`, the resource vector holding the
entries of a Kubernetes resource list. -/
def FromResourceList (list : ResourceList) : ComputeResources :=
  list.foldl (fun acc kv => mapSet acc kv.1 kv.2) []

/-! ## Helpers of package `util` and of the cleanup service -/

/-- Modelled from the spec: `util.IsInTerminalState` (package `internal/executor/util`):
a pod is terminal when its lifecycle phase is succeeded or failed. -/
def IsInTerminalState (pod : Pod) : Bool :=
  pod.Status.Phase = PodSucceeded || pod.Status.Phase = PodFailed

/-- Modelled from the spec: `util.ExtractJobIds` (package `internal/executor/util`): the
job identifiers of the given pods, one per pod, in order. -/
def ExtractJobIds (pods : List Pod) : List String :=
  pods.map (fun pod => pod.JobId)

/-! ## Pure functions of `job_lease_service.go` -/

/-- The taint loop of `isAvailableProcessingNode`: scans the taints and stops at the
first one whose effect is `NoSchedule`. -/
def noScheduleLoop : List Taint → Bool
  | [] => false
  | taint :: rest =>
    if taint.Effect = TaintEffectNoSchedule then true else noScheduleLoop rest

/-- Go function `isAvailableProcessingNode`. -/
def isAvailableProcessingNode (node : Node) : Bool :=
  if node.Spec.Unschedulable then false
  else
    let noSchedule := noScheduleLoop node.Spec.Taints
    if noSchedule then false else true

/-- Go function `getAllAvailableProcessingNodes`. -/
def getAllAvailableProcessingNodes (nodes : List Node) : List Node :=
  nodes.foldl (fun processingNodes node =>
    if isAvailableProcessingNode node then processingNodes ++ [node]
    else processingNodes) []

/-- Go function `getAllPodsOnNodes`. -/
def getAllPodsOnNodes (pods : List Pod) (nodes : List Node) : List Pod :=
  let nodeMap : List (String × Node) :=
    nodes.foldl (fun m node => mapSet m node.Name node) []
  pods.foldl (fun podsBelongingToNodes pod =>
    if mapPresent nodeMap pod.Spec.NodeName then podsBelongingToNodes ++ [pod]
    else podsBelongingToNodes) []

/-- Go function `calculateTotalResource`. -/
def calculateTotalResource (nodes : List Node) : ComputeResources :=
  nodes.foldl (fun totalResources node =>
    let nodeAllocatableResource := FromResourceList node.Status.Allocatable
    totalResources.Add nodeAllocatableResource) []

/-- Go function `calculateTotalResourceLimit`. -/
def calculateTotalResourceLimit (pods : List Pod) : ComputeResources :=
  pods.foldl (fun totalResources pod =>
    pod.Spec.Containers.foldl (fun totalResources container =>
      let containerResourceLimit := FromResourceList container.Resources.Limits
      totalResources.Add containerResourceLimit) totalResources) []

/-- Go function `filterCompletedPods`. -/
def filterCompletedPods (pods : List Pod) : List Pod :=
  pods.foldl (fun completedPods pod =>
    if IsInTerminalState pod then completedPods ++ [pod] else completedPods) []

/-- Go function `splitRunningAndFinishedPods`; `IsPodReadyForCleanup` is the predicate of
the cleanup service, defined elsewhere in package `service` and taken as a parameter. The result is
`(running, finished)`. -/
def splitRunningAndFinishedPods (IsPodReadyForCleanup : Pod → Bool) (pods : List Pod) :
    List Pod × List Pod :=
  pods.foldl (fun (acc : List Pod × List Pod) pod =>
    if IsPodReadyForCleanup pod then (acc.1, acc.2 ++ [pod])
    else (acc.1 ++ [pod], acc.2)) ([], [])

/-- Lines 38 to 46 of `RequestJobLeasesAndFillSpareClusterCapacity`: the resource vector
computed from the node and pod snapshots and passed to `requestJobs`. -/
def availableResource (allNodes : List Node) (allPods : List Pod) : ComputeResources :=
  let processingNodes := getAllAvailableProcessingNodes allNodes
  let podsOnProcessingNodes := getAllPodsOnNodes allPods processingNodes
  let activePodsOnProcessingNodes := filterCompletedPods podsOnProcessingNodes
  let totalNodeResource := calculateTotalResource processingNodes
  let totalPodResource := calculateTotalResourceLimit activePodsOnProcessingNodes
  let availableResource := totalNodeResource.DeepCopy
  availableResource.Sub totalPodResource

/-! ## The job-lease service and its collaborators -/

/-- Go type `api.Job`: the job identifier and its submission payload. -/
structure Job where
  Id : String
  Payload : String
deriving DecidableEq, Repr

/-- Go type `api.LeaseRequest`. -/
structure LeaseRequest where
  ClusterID : String
  Resources : ComputeResources
deriving DecidableEq, Repr

/-- Go type `api.JobLease`, the response of `LeaseJobs`. -/
structure JobLease where
  Job : List Job
deriving DecidableEq, Repr

/-- Go type `api.IdList`. -/
structure IdList where
  Ids : List String
deriving DecidableEq, Repr

/-- The label selectors the service lists pods and nodes with: `labels.Everything()` and
the selector of `util.CreateLabelSelectorForManagedPods`. -/
inductive LabelSelector where
  | Everything
  | ManagedPods
deriving DecidableEq, Repr

/-- The failure reports and progress lines the service prints, one constructor per
`fmt.Println` or `fmt.Printf` call site. -/
inductive Report where
  | ErrorGettingNodeInformation
  | ErrorGettingPodInformation
  | FailedToLeaseNewJobs (err : String)
  | FailedToSubmitJob (jobId : String) (err : String)
  | RenewingLeaseFor (jobIds : List String)
  | FailedToRenewLease (err : String)
  | FailedCleaningUpJobs (err : String)
deriving DecidableEq, Repr

/-- What the service does to the outside world, in program order. -/
inductive Effect where
  | LeaseJobs (request : LeaseRequest)
  | SubmitJob (job : Job)
  | RenewLease (ids : IdList)
  | ReportDone (ids : IdList)
  | DeletePods (pods : List Pod)
  | Print (report : Report)
deriving DecidableEq, Repr

/-- Go interface `api.AggregatedQueueClient`, as the answers of the remote queue. An
error is `some message`, success is `none`. -/
structure AggregatedQueueClient where
  LeaseJobs : LeaseRequest → Except String JobLease
  RenewLease : IdList → Option String
  ReportDone : IdList → Option String

/-- Go type `JobLeaseService`. A lister answers with the listed objects and an optional
error. `JobSubmitter i job` is the error, if any, of the `i`-th `SubmitJob` call of a
cycle (counted from 0), so that every pattern of submission outcomes is expressible.
`CleanupService.DeletePods` returns nothing and appears only as an effect. -/
structure JobLeaseService where
  PodLister : LabelSelector → List Pod × Option String
  NodeLister : LabelSelector → List Node × Option String
  JobSubmitter : Nat → Job → Option String
  QueueClient : AggregatedQueueClient
  ClusterId : String

/-- Go method `JobLeaseService.requestJobs`: the returned `(jobs, err)` and the effects. -/
def requestJobs (jobLeaseService : JobLeaseService) (availableResource : ComputeResources) :
    (List Job × Option String) × List Effect :=
  let leaseRequest : LeaseRequest :=
    { ClusterID := jobLeaseService.ClusterId, Resources := availableResource }
  match jobLeaseService.QueueClient.LeaseJobs leaseRequest with
  | .error err => (([], some err), [Effect.LeaseJobs leaseRequest])
  | .ok response => ((response.Job, none), [Effect.LeaseJobs leaseRequest])

/-- The submission loop of `RequestJobLeasesAndFillSpareClusterCapacity` (lines 52 to 57);
`i` is the number of `SubmitJob` calls already made. -/
def submitJobs (jobLeaseService : JobLeaseService) : Nat → List Job → List Effect
  | _, [] => []
  | i, job :: rest =>
    (match jobLeaseService.JobSubmitter i job with
      | some err => [Effect.SubmitJob job, Effect.Print (Report.FailedToSubmitJob job.Id err)]
      | none => [Effect.SubmitJob job])
    ++ submitJobs jobLeaseService (i + 1) rest

/-- Go method `JobLeaseService.RequestJobLeasesAndFillSpareClusterCapacity`. -/
def RequestJobLeasesAndFillSpareClusterCapacity (jobLeaseService : JobLeaseService) :
    List Effect :=
  let (allNodes, nodeErr) := jobLeaseService.NodeLister LabelSelector.Everything
  let nodeReport :=
    match nodeErr with
    | some _ => [Effect.Print Report.ErrorGettingNodeInformation]
    | none => []
  let (allPods, podErr) := jobLeaseService.PodLister LabelSelector.Everything
  let podReport :=
    match podErr with
    | some _ => [Effect.Print Report.ErrorGettingPodInformation]
    | none => []
  let availableResource := availableResource allNodes allPods
  let ((newJobs, err), leaseEffects) := requestJobs jobLeaseService availableResource
  nodeReport ++ podReport ++ leaseEffects ++
    (match err with
      | some err => [Effect.Print (Report.FailedToLeaseNewJobs err)]
      | none => submitJobs jobLeaseService 0 newJobs)

/-- Go method `JobLeaseService.renewJobLeases`. -/
def renewJobLeases (jobLeaseService : JobLeaseService) (pods : List Pod) : List Effect :=
  if pods.length ≤ 0 then []
  else
    let jobIds := ExtractJobIds pods
    [Effect.Print (Report.RenewingLeaseFor jobIds), Effect.RenewLease { Ids := jobIds }] ++
      (match jobLeaseService.QueueClient.RenewLease { Ids := jobIds } with
        | some err => [Effect.Print (Report.FailedToRenewLease err)]
        | none => [])

/-- Go method `JobLeaseService.endJobLeases`. -/
def endJobLeases (jobLeaseService : JobLeaseService) (pods : List Pod) : List Effect :=
  if pods.length ≤ 0 then []
  else
    let jobIds := ExtractJobIds pods
    [Effect.ReportDone { Ids := jobIds }] ++
      (match jobLeaseService.QueueClient.ReportDone { Ids := jobIds } with
        | some err => [Effect.Print (Report.FailedCleaningUpJobs err)]
        | none => []) ++
      [Effect.DeletePods pods]

/-- Go method `JobLeaseService.ManageJobLeases`; the errors of the selector and of the
listing are not handled by the code, which goes on with the pods it was given. -/
def ManageJobLeases (jobLeaseService : JobLeaseService) (IsPodReadyForCleanup : Pod → Bool) :
    List Effect :=
  let (allManagedPods, _) := jobLeaseService.PodLister LabelSelector.ManagedPods
  let (podsToRenew, podsToCleanup) :=
    splitRunningAndFinishedPods IsPodReadyForCleanup allManagedPods
  renewJobLeases jobLeaseService podsToRenew ++ endJobLeases jobLeaseService podsToCleanup

/-- The collaborator calls of a run, without the printed reports. -/
def calls (effects : List Effect) : List Effect :=
  effects.filter (fun e =>
    match e with
    | Effect.Print _ => false
    | _ => true)

/-- The jobs handed to `JobSubmitter.SubmitJob` in a run, in call order. -/
def submittedJobs (effects : List Effect) : List Job :=
  effects.filterMap (fun e =>
    match e with
    | Effect.SubmitJob job => some job
    | _ => none)

/-- The submission failures reported in a run, as `(job id, error)`, in report order. -/
def reportedSubmitFailures (effects : List Effect) : List (String × String) :=
  effects.filterMap (fun e =>
    match e with
    | Effect.Print (Report.FailedToSubmitJob jobId err) => some (jobId, err)
    | _ => none)

/-- The submissions that fail when `jobs` are submitted in order starting at call index
`i`, as `(job id, error)`. -/
def failedSubmissions (submit : Nat → Job → Option String) (i : Nat) (jobs : List Job) :
    List (String × String) :=
  (jobs.enumFrom i).filterMap (fun x => (submit x.1 x.2).map (fun err => (x.2.Id, err)))

/-! ## The job-set subscription loop (package `eventstojobs`) -/

/-- Go type `api.EventStreamMessage`, reduced to its identifier. -/
structure EventStreamMessage where
  Id : String
deriving DecidableEq, Repr

/-- What `SubscribeToJobSetId` returns when it does not return nil: the timeout error of
an elapsed TTL, or the error the event source returned. -/
inductive SubscribeError where
  | Timeout
  | Source (err : String)
deriving DecidableEq, Repr

/-- The calls `SubscribeToJobSetId` makes on its collaborators, the event reader
(`GetJobEventMessage`, `Close`) and the subscription store, in program order.
`UnsubscribeJobSet` is the store operation that clears the subscribed flag. -/
inductive SubscriptionCall where
  | GetJobEventMessage
  | Close
  | IsJobSetSubscribed (queue : String) (jobSetId : String)
  | SetSubscriptionError (queue : String) (jobSetId : String) (err : String)
  | ClearSubscriptionError (queue : String) (jobSetId : String)
  | UnsubscribeJobSet (queue : String) (jobSetId : String)
deriving DecidableEq, Repr

/-- The service built by `NewEventsToJobService queue jobSetId jobId reader repository`,
as in the test. `GetJobEventMessage k` is what the event source answers to the fetch of
iteration `k` of the loop, and `IsJobSetSubscribed k` what the store answers to the
query of iteration `k` (the test's mocks are the constant ones). -/
structure EventsToJobService where
  queue : String
  jobSetId : String
  jobId : String
  GetJobEventMessage : Nat → Except String EventStreamMessage
  IsJobSetSubscribed : Nat → String → String → Bool

/-- Modelled from the spec: the poll loop of `eventstojobs.SubscribeToJobSetId`, whose
source is absent (only its test is present), following the transition rule of the
design: at iteration `k`, (1) if the clock has reached the deadline, close the source
and return a timeout error; (2) otherwise fetch, and on a fetch error record it in the
store for `(queue, jobSetId)`, close the source and return that error; (3) on a
successful fetch clear the recorded error, then ask the store whether the job set is
still subscribed: if not, close the source and return nil, else loop. `now (k + 1)` is
the clock reading of the check of iteration `k`, in seconds. `fuel` bounds the number
of iterations; `none` means the bound was reached. -/
def pollLoop (now : Nat → Int) (service : EventsToJobService) (deadline : Int) :
    Nat → Nat → Option (Option SubscribeError × List SubscriptionCall)
  | 0, _ => none
  | fuel + 1, k =>
    if now (k + 1) ≥ deadline then
      some (some SubscribeError.Timeout, [SubscriptionCall.Close])
    else
      match service.GetJobEventMessage k with
      | .error err =>
        some (some (SubscribeError.Source err),
          [SubscriptionCall.GetJobEventMessage,
           SubscriptionCall.SetSubscriptionError service.queue service.jobSetId err,
           SubscriptionCall.Close])
      | .ok _ =>
        if service.IsJobSetSubscribed k service.queue service.jobSetId then
          (pollLoop now service deadline fuel (k + 1)).map (fun r =>
            (r.1, [SubscriptionCall.GetJobEventMessage,
                   SubscriptionCall.ClearSubscriptionError service.queue service.jobSetId,
                   SubscriptionCall.IsJobSetSubscribed service.queue service.jobSetId]
                  ++ r.2))
        else
          some (none,
            [SubscriptionCall.GetJobEventMessage,
             SubscriptionCall.ClearSubscriptionError service.queue service.jobSetId,
             SubscriptionCall.IsJobSetSubscribed service.queue service.jobSetId,
             SubscriptionCall.Close])

/-- Modelled from the spec: `eventstojobs.SubscribeToJobSetId`, whose source is absent:
the deadline is computed once, at subscription start, as the clock reading `now 0` plus
the configured seconds, and the poll loop runs against it. The result is the returned
error (`none` is nil) and the calls made. -/
def SubscribeToJobSetId (now : Nat → Int) (service : EventsToJobService) (ttlSecs : Int)
    (fuel : Nat) : Option (Option SubscribeError × List SubscriptionCall) :=
  let deadline := now 0 + ttlSecs
  pollLoop now service deadline fuel 0

/-- Number of `SetSubscriptionError` calls for the pair `(queue, jobSetId)`. -/
def setSubscriptionErrorCalls (queue jobSetId : String) (cs : List SubscriptionCall) : Nat :=
  cs.countP (fun c =>
    match c with
    | SubscriptionCall.SetSubscriptionError q j _ => q = queue && j = jobSetId
    | _ => false)

/-- Number of `ClearSubscriptionError` calls, for any pair. -/
def clearSubscriptionErrorCalls (cs : List SubscriptionCall) : Nat :=
  cs.countP (fun c =>
    match c with
    | SubscriptionCall.ClearSubscriptionError _ _ => true
    | _ => false)

/-- Number of calls that clear the subscribed flag, for any pair. -/
def unsubscribeCalls (cs : List SubscriptionCall) : Nat :=
  cs.countP (fun c =>
    match c with
    | SubscriptionCall.UnsubscribeJobSet _ _ => true
    | _ => false)

/-- The lease requests sent to `QueueClient.LeaseJobs` in a run, in call order. -/
def leaseRequests (effects : List Effect) : List LeaseRequest :=
  effects.filterMap (fun e =>
    match e with
    | Effect.LeaseJobs request => some request
    | _ => none)

/-- A pod stripped of what `calculateTotalResourceLimit` is claimed not to read: its init
containers and the resource requests of its containers. -/
def withoutRequestsAndInit (pod : Pod) : Pod :=
  { pod with
    Spec := { pod.Spec with
      Containers := pod.Spec.Containers.map (fun c =>
        { c with Resources := { c.Resources with Requests := [] } }),
      InitContainers := [] } }

/-- The calls of `n` iterations of the poll loop that fetched an event and found the job
set still subscribed. -/
def iterationCalls (queue jobSetId : String) : Nat → List SubscriptionCall
  | 0 => []
  | n + 1 =>
    [SubscriptionCall.GetJobEventMessage,
     SubscriptionCall.ClearSubscriptionError queue jobSetId,
     SubscriptionCall.IsJobSetSubscribed queue jobSetId]
    ++ iterationCalls queue jobSetId n

/-! ## Concrete scenarios -/

namespace Scenario

/-- A schedulable, untainted node with allocatable `cpu: 4`. -/
def node (name : String) : Node :=
  { Name := name,
    Spec := { Unschedulable := false, Taints := [] },
    Status := { Allocatable := [("cpu", 4)] } }

/-- A pod with one container of limit `cpu: 3`. -/
def pod (name jobId nodeName : String) (phase : PodPhase) : Pod :=
  { Name := name, JobId := jobId,
    Spec := { NodeName := nodeName,
              Containers := [{ Name := "main",
                               Resources := { Limits := [("cpu", 3)], Requests := [] } }],
              InitContainers := [] },
    Status := { Phase := phase } }

/-- Two eligible nodes with allocatable `cpu: 4` each. -/
def twoNodes : List Node := [node "node-1", node "node-2"]

/-- One running pod on `node-1`. -/
def runningPod : Pod := pod "pod-1" "job-1" "node-1" PodRunning

/-- One succeeded pod on `node-1`. -/
def succeededPod : Pod := pod "pod-2" "job-2" "node-1" PodSucceeded

/-- One failed pod on `node-2`. -/
def failedPod : Pod := pod "pod-3" "job-3" "node-2" PodFailed

/-- A queue whose every call succeeds, leasing the given jobs. -/
def queueOk (jobs : List Job) : AggregatedQueueClient :=
  { LeaseJobs := fun _ => .ok { Job := jobs },
    RenewLease := fun _ => none,
    ReportDone := fun _ => none }

/-- A queue whose every call fails. -/
def queueDown : AggregatedQueueClient :=
  { LeaseJobs := fun _ => .error "deadline exceeded",
    RenewLease := fun _ => some "deadline exceeded",
    ReportDone := fun _ => some "deadline exceeded" }

/-- Two leased jobs. -/
def twoJobs : List Job := [{ Id := "job-a", Payload := "" }, { Id := "job-b", Payload := "" }]

/-- A submitter whose first call fails and whose later calls succeed. -/
def firstSubmitFails : Nat → Job → Option String :=
  fun i _ => if i = 0 then some "rejected" else none

/-- A service over the given snapshot: `pods` is what the pod lister returns for either
selector. -/
def service (nodes : List Node) (pods : List Pod) (queue : AggregatedQueueClient)
    (submit : Nat → Job → Option String) : JobLeaseService :=
  { PodLister := fun _ => (pods, none),
    NodeLister := fun _ => (nodes, none),
    JobSubmitter := submit,
    QueueClient := queue,
    ClusterId := "cluster-1" }

/-- The cleanup predicate used in the scenarios: a terminal pod is ready for cleanup. -/
def readyWhenTerminal (pod : Pod) : Bool := IsInTerminalState pod

/-- The subscription service of the test, with an event source that always fails with
`some error` and a store that always reports the job set as subscribed. -/
def failingSource : EventsToJobService :=
  { queue := "somestring", jobSetId := "someJobSetId", jobId := "someJobId",
    GetJobEventMessage := fun _ => .error "some error",
    IsJobSetSubscribed := fun _ _ _ => true }

/-- A clock that stands still at instant 0. -/
def frozenClock : Nat → Int := fun _ => 0

/-- A schedulable node whose taints have the effects `NoExecute` and `PreferNoSchedule`. -/
def softTaintedNode : Node :=
  { Name := "node-3",
    Spec := { Unschedulable := false,
              Taints := [{ Key := "maintenance", Value := "", Effect := TaintEffectNoExecute },
                         { Key := "spot", Value := "", Effect := TaintEffectPreferNoSchedule }] },
    Status := { Allocatable := [("cpu", 4)] } }

/-- A cordoned node. -/
def cordonedNode : Node :=
  { Name := "node-4",
    Spec := { Unschedulable := true, Taints := [] },
    Status := { Allocatable := [("cpu", 4)] } }

/-- A succeeded pod that is not assigned to any node. -/
def unassignedPod : Pod := pod "pod-4" "job-4" "" PodSucceeded

/-- A succeeded pod on the cordoned node. -/
def cordonedPod : Pod := pod "pod-5" "job-5" "node-4" PodSucceeded

/-- The subscription service of the test, with an event source that always returns a
valid event and a store that always reports the job set as not subscribed. -/
def leavingSubscriber : EventsToJobService :=
  { queue := "somestring", jobSetId := "someJobSetId", jobId := "someJobId",
    GetJobEventMessage := fun _ => .ok { Id := "" },
    IsJobSetSubscribed := fun _ _ _ => false }

/-- The subscription service of the test, with an event source that always returns a
valid event and a store that always reports the job set as subscribed. -/
def steadySubscriber : EventsToJobService :=
  { queue := "somestring", jobSetId := "someJobSetId", jobId := "someJobId",
    GetJobEventMessage := fun _ => .ok { Id := "" },
    IsJobSetSubscribed := fun _ _ _ => true }

/-- A clock that advances by half a second between two readings: reading `k` is at
`k / 2` seconds (rounded down). -/
def tickingClock : Nat → Int := fun k => ((k / 2 : Nat) : Int)

end Scenario

end Armada

/-! ## Loops as filters -/

namespace Armada

/-- A loop that appends the elements satisfying `p` to its accumulator computes the
accumulator followed by the filtered list. -/
theorem foldl_append_if {α : Type} (p : α → Bool) (l init : List α) :
    l.foldl (fun acc x => if p x then acc ++ [x] else acc) init = init ++ l.filter p := by
  induction l generalizing init with
  | nil => simp
  | cons x xs ih =>
    simp only [List.foldl_cons, List.filter_cons]
    rw [ih]
    cases p x <;> simp

/-- The function `filterCompletedPods` keeps the pods in a terminal state. -/
theorem filterCompletedPods_eq_filter (pods : List Pod) :
    filterCompletedPods pods = pods.filter IsInTerminalState := by
  unfold filterCompletedPods
  rw [foldl_append_if]
  simp

/-- The taint loop finds a `NoSchedule` taint exactly when there is one. -/
theorem noScheduleLoop_eq_true_iff (taints : List Taint) :
    noScheduleLoop taints = true ↔ ∃ t ∈ taints, t.Effect = TaintEffectNoSchedule := by
  induction taints with
  | nil => simp [noScheduleLoop]
  | cons t ts ih =>
    unfold noScheduleLoop
    by_cases h : t.Effect = TaintEffectNoSchedule
    · simp [h]
    · simp [h, ih]

/-- A node is available exactly when it is schedulable and has no `NoSchedule` taint. -/
theorem isAvailableProcessingNode_eq_true_iff (node : Node) :
    isAvailableProcessingNode node = true ↔
      node.Spec.Unschedulable = false ∧
        ∀ t ∈ node.Spec.Taints, t.Effect ≠ TaintEffectNoSchedule := by
  unfold isAvailableProcessingNode
  cases hU : node.Spec.Unschedulable
  · cases hL : noScheduleLoop node.Spec.Taints
    · have hno : ¬ ∃ t ∈ node.Spec.Taints, t.Effect = TaintEffectNoSchedule := by
        rw [← noScheduleLoop_eq_true_iff, hL]; simp
      simp only [Bool.false_eq_true, if_false, true_and, true_iff]
      intro t ht heq
      exact hno ⟨t, ht, heq⟩
    · obtain ⟨t, ht, heq⟩ := (noScheduleLoop_eq_true_iff _).mp hL
      simp only [Bool.false_eq_true, if_false, if_true, true_and, false_iff]
      intro hall
      exact hall t ht heq
  · simp

/-- The two accumulators of `splitRunningAndFinishedPods` are the two filters. -/
theorem split_foldl (ready : Pod → Bool) (pods : List Pod) (acc : List Pod × List Pod) :
    pods.foldl (fun (acc : List Pod × List Pod) pod =>
      if ready pod then (acc.1, acc.2 ++ [pod]) else (acc.1 ++ [pod], acc.2)) acc
      = (acc.1 ++ pods.filter (fun p => !ready p), acc.2 ++ pods.filter ready) := by
  induction pods generalizing acc with
  | nil => simp
  | cons x xs ih =>
    simp only [List.foldl_cons, List.filter_cons]
    rw [ih]
    cases ready x <;> simp

/-- The function `splitRunningAndFinishedPods` returns the two filters of its input. -/
theorem splitRunningAndFinishedPods_eq (ready : Pod → Bool) (pods : List Pod) :
    splitRunningAndFinishedPods ready pods
      = (pods.filter (fun p => !ready p), pods.filter ready) := by
  unfold splitRunningAndFinishedPods
  rw [split_foldl]
  simp

/-! ## Claims on the pure functions -/

/-- C1 (the code departs from the claim): on the list made of a running pod and a
succeeded pod, `filterCompletedPods` returns the succeeded pod alone, whereas the
pods of that list whose phase is not terminal are the running pod alone; in general
the function keeps exactly the terminal pods. -/
theorem filterCompletedPods_returns_terminal_pods :
    filterCompletedPods [Scenario.runningPod, Scenario.succeededPod]
        = [Scenario.succeededPod] ∧
      [Scenario.runningPod, Scenario.succeededPod].filter (fun p => !IsInTerminalState p)
        = [Scenario.runningPod] ∧
      ∀ pods : List Pod, filterCompletedPods pods = pods.filter IsInTerminalState :=
  ⟨by decide, by decide, filterCompletedPods_eq_filter⟩

/-- C2 (the code departs from the claim): with two eligible nodes of allocatable
`cpu: 4` each and one running pod of container limit `cpu: 3` on one of them, the lease
request carries `cpu: 8`, whereas total allocatable minus the limits of the non-terminal
pods on eligible nodes is `cpu: 5`. -/
theorem lease_request_ignores_running_pods :
    availableResource Scenario.twoNodes [Scenario.runningPod] = [("cpu", 8)] ∧
      calls (RequestJobLeasesAndFillSpareClusterCapacity
          (Scenario.service Scenario.twoNodes [Scenario.runningPod] (Scenario.queueOk [])
            (fun _ _ => none)))
        = [Effect.LeaseJobs { ClusterID := "cluster-1", Resources := [("cpu", 8)] }] ∧
      (calculateTotalResource (getAllAvailableProcessingNodes Scenario.twoNodes)).Sub
          (calculateTotalResourceLimit
            ((getAllPodsOnNodes [Scenario.runningPod]
                (getAllAvailableProcessingNodes Scenario.twoNodes)).filter
              (fun p => !IsInTerminalState p)))
        = [("cpu", 5)] := by
  refine ⟨by decide, by decide, by decide⟩

/-- C3: `getAllAvailableProcessingNodes` returns, in input order, exactly the nodes with
`Unschedulable = false` that carry no taint of effect `NoSchedule`; hence a node with
`Unschedulable = true` is excluded whatever its taints, and a node with a `NoSchedule`
taint is excluded whatever its flag. -/
theorem getAllAvailableProcessingNodes_eq_filter (nodes : List Node) :
    getAllAvailableProcessingNodes nodes
      = nodes.filter (fun node =>
          decide (node.Spec.Unschedulable = false ∧
            ∀ t ∈ node.Spec.Taints, t.Effect ≠ TaintEffectNoSchedule)) := by
  unfold getAllAvailableProcessingNodes
  rw [foldl_append_if, List.nil_append]
  apply List.filter_congr
  intro node _
  by_cases h : isAvailableProcessingNode node = true
  · rw [h]
    exact (decide_eq_true ((isAvailableProcessingNode_eq_true_iff node).mp h)).symm
  · have h2 : ¬ (node.Spec.Unschedulable = false ∧
        ∀ t ∈ node.Spec.Taints, t.Effect ≠ TaintEffectNoSchedule) :=
      fun hc => h ((isAvailableProcessingNode_eq_true_iff node).mpr hc)
    rw [Bool.not_eq_true] at h
    rw [h]
    exact (decide_eq_false h2).symm

/-- C4: `splitRunningAndFinishedPods` is a total and disjoint partition of its input:
the finished list is the sub-list of the pods satisfying `IsPodReadyForCleanup`, the
running list the sub-list of those that do not, both in input order; the two lists
together are a rearrangement of the input, with no pod lost or duplicated; and their
lengths add up to the length of the input. -/
theorem splitRunningAndFinishedPods_partition (IsPodReadyForCleanup : Pod → Bool)
    (pods : List Pod) :
    (splitRunningAndFinishedPods IsPodReadyForCleanup pods).1
        = pods.filter (fun p => !IsPodReadyForCleanup p) ∧
      (splitRunningAndFinishedPods IsPodReadyForCleanup pods).2
        = pods.filter IsPodReadyForCleanup ∧
      List.Perm
        ((splitRunningAndFinishedPods IsPodReadyForCleanup pods).2 ++
          (splitRunningAndFinishedPods IsPodReadyForCleanup pods).1) pods ∧
      (splitRunningAndFinishedPods IsPodReadyForCleanup pods).1.length +
        (splitRunningAndFinishedPods IsPodReadyForCleanup pods).2.length = pods.length := by
  rw [splitRunningAndFinishedPods_eq]
  refine ⟨rfl, rfl, ?_, ?_⟩
  · exact List.filter_append_perm IsPodReadyForCleanup pods
  · have h := (List.filter_append_perm IsPodReadyForCleanup pods).length_eq
    simp only [List.length_append] at h
    show (pods.filter (fun p => !IsPodReadyForCleanup p)).length +
      (pods.filter IsPodReadyForCleanup).length = pods.length
    omega

end Armada

/-! ## The renew and retire cycle -/

namespace Armada

/-- The identifiers extracted from a non-empty pod list are non-empty. -/
theorem ExtractJobIds_ne_nil (pods : List Pod) (h : pods ≠ []) : ExtractJobIds pods ≠ [] := by
  cases pods with
  | nil => exact absurd rfl h
  | cons p ps => simp [ExtractJobIds]

/-- On the empty list `renewJobLeases` does nothing. -/
theorem renewJobLeases_nil (svc : JobLeaseService) : renewJobLeases svc [] = [] := by
  simp [renewJobLeases]

/-- On the empty list `endJobLeases` does nothing. -/
theorem endJobLeases_nil (svc : JobLeaseService) : endJobLeases svc [] = [] := by
  simp [endJobLeases]

/-- The effects of `renewJobLeases` on a non-empty list. -/
theorem renewJobLeases_cons (svc : JobLeaseService) (pods : List Pod) (h : pods ≠ []) :
    renewJobLeases svc pods
      = [Effect.Print (Report.RenewingLeaseFor (ExtractJobIds pods)),
          Effect.RenewLease { Ids := ExtractJobIds pods }] ++
        (match svc.QueueClient.RenewLease { Ids := ExtractJobIds pods } with
          | some err => [Effect.Print (Report.FailedToRenewLease err)]
          | none => []) := by
  have hlen : ¬ pods.length ≤ 0 := by
    cases pods with
    | nil => exact absurd rfl h
    | cons p ps => simp
  simp only [renewJobLeases, hlen, if_false]

/-- The effects of `endJobLeases` on a non-empty list. -/
theorem endJobLeases_cons (svc : JobLeaseService) (pods : List Pod) (h : pods ≠ []) :
    endJobLeases svc pods
      = [Effect.ReportDone { Ids := ExtractJobIds pods }] ++
        (match svc.QueueClient.ReportDone { Ids := ExtractJobIds pods } with
          | some err => [Effect.Print (Report.FailedCleaningUpJobs err)]
          | none => []) ++
        [Effect.DeletePods pods] := by
  have hlen : ¬ pods.length ≤ 0 := by
    cases pods with
    | nil => exact absurd rfl h
    | cons p ps => simp
  simp only [endJobLeases, hlen, if_false]

/-- The calls of `renewJobLeases`. -/
theorem calls_renewJobLeases (svc : JobLeaseService) (pods : List Pod) :
    calls (renewJobLeases svc pods)
      = if pods = [] then [] else [Effect.RenewLease { Ids := ExtractJobIds pods }] := by
  by_cases h : pods = []
  · subst h
    simp [renewJobLeases_nil, calls]
  · rw [renewJobLeases_cons svc pods h, if_neg h]
    cases svc.QueueClient.RenewLease { Ids := ExtractJobIds pods } <;> simp [calls]

/-- The calls of `endJobLeases`. -/
theorem calls_endJobLeases (svc : JobLeaseService) (pods : List Pod) :
    calls (endJobLeases svc pods)
      = if pods = [] then []
        else [Effect.ReportDone { Ids := ExtractJobIds pods }, Effect.DeletePods pods] := by
  by_cases h : pods = []
  · subst h
    simp [endJobLeases_nil, calls]
  · rw [endJobLeases_cons svc pods h, if_neg h]
    cases svc.QueueClient.ReportDone { Ids := ExtractJobIds pods } <;> simp [calls]

/-- The collaborator calls are members of the run. -/
theorem mem_calls_of_call (effects : List Effect) (e : Effect) (ids : IdList)
    (hmem : e ∈ effects) (hcall : e = Effect.RenewLease ids ∨ e = Effect.ReportDone ids) :
    e ∈ calls effects := by
  unfold calls
  rw [List.mem_filter]
  refine ⟨hmem, ?_⟩
  rcases hcall with h | h <;> subst h <;> rfl

/-- `ManageJobLeases` is `renewJobLeases` on the pods not ready for cleanup followed by
`endJobLeases` on those that are. -/
theorem ManageJobLeases_eq (svc : JobLeaseService) (ready : Pod → Bool) :
    ManageJobLeases svc ready
      = renewJobLeases svc ((svc.PodLister LabelSelector.ManagedPods).1.filter
            (fun p => !ready p)) ++
        endJobLeases svc ((svc.PodLister LabelSelector.ManagedPods).1.filter ready) := by
  simp only [ManageJobLeases, splitRunningAndFinishedPods_eq]

/-- C5: whenever `renewJobLeases`, `endJobLeases` or `ManageJobLeases` invokes the queue
client's `RenewLease` or `ReportDone`, the id list the call carries is not empty. -/
theorem lease_calls_carry_nonempty_ids (svc : JobLeaseService)
    (IsPodReadyForCleanup : Pod → Bool) (pods : List Pod) (e : Effect) (ids : IdList)
    (hmem : e ∈ renewJobLeases svc pods ∨ e ∈ endJobLeases svc pods ∨
      e ∈ ManageJobLeases svc IsPodReadyForCleanup)
    (hcall : e = Effect.RenewLease ids ∨ e = Effect.ReportDone ids) :
    ids.Ids ≠ [] := by
  have renew : ∀ ps : List Pod, e ∈ renewJobLeases svc ps → ids.Ids ≠ [] := by
    intro ps hm
    have hc := mem_calls_of_call _ e ids hm hcall
    rw [calls_renewJobLeases] at hc
    by_cases hps : ps = []
    · simp [hps] at hc
    · rw [if_neg hps, List.mem_singleton] at hc
      rcases hcall with h | h
      · rw [h] at hc
        injection hc with hc
        rw [hc]
        exact ExtractJobIds_ne_nil ps hps
      · rw [h] at hc
        cases hc
  have done : ∀ ps : List Pod, e ∈ endJobLeases svc ps → ids.Ids ≠ [] := by
    intro ps hm
    have hc := mem_calls_of_call _ e ids hm hcall
    rw [calls_endJobLeases] at hc
    by_cases hps : ps = []
    · simp [hps] at hc
    · rw [if_neg hps] at hc
      simp only [List.mem_cons, List.mem_singleton, List.not_mem_nil, or_false] at hc
      rcases hcall with h | h
      · rw [h] at hc
        rcases hc with hc | hc <;> cases hc
      · rw [h] at hc
        rcases hc with hc | hc
        · injection hc with hc
          rw [hc]
          exact ExtractJobIds_ne_nil ps hps
        · cases hc
  rcases hmem with h | h | h
  · exact renew pods h
  · exact done pods h
  · rw [ManageJobLeases_eq, List.mem_append] at h
    rcases h with h | h
    · exact renew _ h
    · exact done _ h

/-- C5, at a concrete run: with one running and one succeeded managed pod,
`ManageJobLeases` calls `ReportDone` with the one id `job-2`. -/
theorem lease_calls_carry_nonempty_ids_witness :
    Effect.ReportDone { Ids := ["job-2"] } ∈
        ManageJobLeases
          (Scenario.service [] [Scenario.runningPod, Scenario.succeededPod]
            Scenario.queueDown (fun _ _ => none))
          Scenario.readyWhenTerminal ∧
      ({ Ids := ["job-2"] } : IdList).Ids ≠ [] :=
  ⟨by decide,
   lease_calls_carry_nonempty_ids
    (Scenario.service [] [Scenario.runningPod, Scenario.succeededPod]
      Scenario.queueDown (fun _ _ => none))
    Scenario.readyWhenTerminal [] (Effect.ReportDone { Ids := ["job-2"] }) { Ids := ["job-2"] }
    (Or.inr (Or.inr (by decide))) (Or.inr rfl)⟩

/-- C6: for a non-empty list of pods, `endJobLeases` calls `ReportDone` with their job ids
and then `DeletePods`, exactly once, with exactly that pod list, whatever `ReportDone`
answers (the answer only adds a printed report between the two calls); for the empty
list it makes no call at all. -/
theorem endJobLeases_deletes_after_report (svc : JobLeaseService) (pods : List Pod)
    (h : pods ≠ []) :
    calls (endJobLeases svc pods)
        = [Effect.ReportDone { Ids := ExtractJobIds pods }, Effect.DeletePods pods] ∧
      endJobLeases svc pods
        = [Effect.ReportDone { Ids := ExtractJobIds pods }] ++
          (match svc.QueueClient.ReportDone { Ids := ExtractJobIds pods } with
            | some err => [Effect.Print (Report.FailedCleaningUpJobs err)]
            | none => []) ++
          [Effect.DeletePods pods] ∧
      endJobLeases svc [] = [] := by
  refine ⟨?_, endJobLeases_cons svc pods h, endJobLeases_nil svc⟩
  rw [calls_endJobLeases, if_neg h]

/-- C6, at a concrete run: when `ReportDone` fails, the succeeded pod is deleted all the
same, after the report attempt. -/
theorem endJobLeases_deletes_after_report_witness :
    calls (endJobLeases (Scenario.service [] [] Scenario.queueDown (fun _ _ => none))
        [Scenario.succeededPod])
      = [Effect.ReportDone { Ids := ["job-2"] }, Effect.DeletePods [Scenario.succeededPod]] :=
  (endJobLeases_deletes_after_report
    (Scenario.service [] [] Scenario.queueDown (fun _ _ => none))
    [Scenario.succeededPod] (by decide)).1

/-- C7: the collaborator calls of `ManageJobLeases` are, in this order, `RenewLease` with
the job ids of the managed pods not ready for cleanup (if there are any), then
`ReportDone` with the job ids of the managed pods ready for cleanup and `DeletePods` with
those pods (if there are any). The calls do not depend on what the queue answers, so a
`RenewLease` failure leaves the `ReportDone` and `DeletePods` calls unchanged. -/
theorem ManageJobLeases_calls (svc : JobLeaseService) (IsPodReadyForCleanup : Pod → Bool) :
    calls (ManageJobLeases svc IsPodReadyForCleanup)
      = (if (svc.PodLister LabelSelector.ManagedPods).1.filter
              (fun p => !IsPodReadyForCleanup p) = [] then []
          else [Effect.RenewLease
            { Ids := ExtractJobIds ((svc.PodLister LabelSelector.ManagedPods).1.filter
                (fun p => !IsPodReadyForCleanup p)) }]) ++
        (if (svc.PodLister LabelSelector.ManagedPods).1.filter IsPodReadyForCleanup = []
          then []
          else [Effect.ReportDone
              { Ids := ExtractJobIds
                  ((svc.PodLister LabelSelector.ManagedPods).1.filter IsPodReadyForCleanup) },
            Effect.DeletePods
              ((svc.PodLister LabelSelector.ManagedPods).1.filter IsPodReadyForCleanup)]) := by
  rw [ManageJobLeases_eq]
  unfold calls
  rw [List.filter_append]
  exact congrArg₂ (· ++ ·) (calls_renewJobLeases svc _) (calls_endJobLeases svc _)

/-- C7, at a concrete run: with three managed pods, two ready for cleanup and one
running, and a queue whose every call fails, `RenewLease` is called with the one running
id, then `ReportDone` and `DeletePods` with the two ready pods. -/
theorem ManageJobLeases_calls_witness :
    calls (ManageJobLeases
        (Scenario.service []
          [Scenario.succeededPod, Scenario.runningPod, Scenario.failedPod]
          Scenario.queueDown (fun _ _ => none))
        Scenario.readyWhenTerminal)
      = [Effect.RenewLease { Ids := ["job-1"] },
         Effect.ReportDone { Ids := ["job-2", "job-3"] },
         Effect.DeletePods [Scenario.succeededPod, Scenario.failedPod]] :=
  (ManageJobLeases_calls
    (Scenario.service []
      [Scenario.succeededPod, Scenario.runningPod, Scenario.failedPod]
      Scenario.queueDown (fun _ _ => none))
    Scenario.readyWhenTerminal).trans (by decide)

end Armada

/-! ## The acquire and submit cycle -/

namespace Armada

/-- The lease request of a cycle: the configured cluster id and the resource vector
computed from the listed nodes and pods. -/
theorem requestJobs_effects (svc : JobLeaseService) (res : ComputeResources) :
    (requestJobs svc res).2
      = [Effect.LeaseJobs { ClusterID := svc.ClusterId, Resources := res }] := by
  cases h : svc.QueueClient.LeaseJobs { ClusterID := svc.ClusterId, Resources := res } <;>
    simp only [requestJobs, h]

/-- The submission loop hands every job to the submitter, in order. -/
theorem submittedJobs_submitJobs (svc : JobLeaseService) (i : Nat) (jobs : List Job) :
    submittedJobs (submitJobs svc i jobs) = jobs := by
  induction jobs generalizing i with
  | nil => rfl
  | cons job rest ih =>
    have ih2 := ih (i + 1)
    unfold submittedJobs at ih2 ⊢
    unfold submitJobs
    cases svc.JobSubmitter i job <;> simp [List.filterMap_append, List.filterMap_cons, ih2]

/-- The submission loop reports the failed submissions, and nothing else. -/
theorem reportedSubmitFailures_submitJobs (svc : JobLeaseService) (i : Nat)
    (jobs : List Job) :
    reportedSubmitFailures (submitJobs svc i jobs)
      = failedSubmissions svc.JobSubmitter i jobs := by
  induction jobs generalizing i with
  | nil => rfl
  | cons job rest ih =>
    have ih2 := ih (i + 1)
    unfold reportedSubmitFailures failedSubmissions at ih2 ⊢
    unfold submitJobs
    cases h : svc.JobSubmitter i job <;>
      simp [List.filterMap_append, List.filterMap_cons, List.enumFrom_cons, ih2, h]

/-- The run of the acquire cycle when the lease request succeeds. -/
theorem RequestJobLeases_ok (svc : JobLeaseService) (response : JobLease)
    (h : svc.QueueClient.LeaseJobs
        { ClusterID := svc.ClusterId,
          Resources := availableResource (svc.NodeLister LabelSelector.Everything).1
            (svc.PodLister LabelSelector.Everything).1 } = .ok response) :
    RequestJobLeasesAndFillSpareClusterCapacity svc
      = (match (svc.NodeLister LabelSelector.Everything).2 with
          | some _ => [Effect.Print Report.ErrorGettingNodeInformation]
          | none => []) ++
        (match (svc.PodLister LabelSelector.Everything).2 with
          | some _ => [Effect.Print Report.ErrorGettingPodInformation]
          | none => []) ++
        [Effect.LeaseJobs
          { ClusterID := svc.ClusterId,
            Resources := availableResource (svc.NodeLister LabelSelector.Everything).1
              (svc.PodLister LabelSelector.Everything).1 }] ++
        submitJobs svc 0 response.Job := by
  simp only [RequestJobLeasesAndFillSpareClusterCapacity, requestJobs, h]

/-- The run of the acquire cycle when the lease request fails. -/
theorem RequestJobLeases_error (svc : JobLeaseService) (err : String)
    (h : svc.QueueClient.LeaseJobs
        { ClusterID := svc.ClusterId,
          Resources := availableResource (svc.NodeLister LabelSelector.Everything).1
            (svc.PodLister LabelSelector.Everything).1 } = .error err) :
    RequestJobLeasesAndFillSpareClusterCapacity svc
      = (match (svc.NodeLister LabelSelector.Everything).2 with
          | some _ => [Effect.Print Report.ErrorGettingNodeInformation]
          | none => []) ++
        (match (svc.PodLister LabelSelector.Everything).2 with
          | some _ => [Effect.Print Report.ErrorGettingPodInformation]
          | none => []) ++
        [Effect.LeaseJobs
          { ClusterID := svc.ClusterId,
            Resources := availableResource (svc.NodeLister LabelSelector.Everything).1
              (svc.PodLister LabelSelector.Everything).1 }] ++
        [Effect.Print (Report.FailedToLeaseNewJobs err)] := by
  simp only [RequestJobLeasesAndFillSpareClusterCapacity, requestJobs, h]

/-- The reports of the two listings contain no submission and no submission failure. -/
theorem listing_reports_inert (nodeErr podErr : Option String) (req : LeaseRequest) :
    submittedJobs
        ((match nodeErr with
          | some _ => [Effect.Print Report.ErrorGettingNodeInformation]
          | none => []) ++
        (match podErr with
          | some _ => [Effect.Print Report.ErrorGettingPodInformation]
          | none => []) ++
        [Effect.LeaseJobs req]) = [] ∧
      reportedSubmitFailures
        ((match nodeErr with
          | some _ => [Effect.Print Report.ErrorGettingNodeInformation]
          | none => []) ++
        (match podErr with
          | some _ => [Effect.Print Report.ErrorGettingPodInformation]
          | none => []) ++
        [Effect.LeaseJobs req]) = [] := by
  cases nodeErr <;> cases podErr <;> exact ⟨rfl, rfl⟩

/-- C8: when the lease request succeeds, `RequestJobLeasesAndFillSpareClusterCapacity`
calls `SubmitJob` exactly once per returned job, in the returned order, whatever the
outcomes of the submissions, and the submission failures it reports are exactly those
of the jobs whose submission returned an error, one report each. -/
theorem submits_every_leased_job (svc : JobLeaseService) (response : JobLease)
    (h : svc.QueueClient.LeaseJobs
        { ClusterID := svc.ClusterId,
          Resources := availableResource (svc.NodeLister LabelSelector.Everything).1
            (svc.PodLister LabelSelector.Everything).1 } = .ok response) :
    submittedJobs (RequestJobLeasesAndFillSpareClusterCapacity svc) = response.Job ∧
      reportedSubmitFailures (RequestJobLeasesAndFillSpareClusterCapacity svc)
        = failedSubmissions svc.JobSubmitter 0 response.Job := by
  rw [RequestJobLeases_ok svc response h]
  have hin := listing_reports_inert (svc.NodeLister LabelSelector.Everything).2
    (svc.PodLister LabelSelector.Everything).2
    { ClusterID := svc.ClusterId,
      Resources := availableResource (svc.NodeLister LabelSelector.Everything).1
        (svc.PodLister LabelSelector.Everything).1 }
  constructor
  · have h1 := submittedJobs_submitJobs svc 0 response.Job
    have h0 := hin.1
    unfold submittedJobs at h0 h1 ⊢
    rw [List.filterMap_append, h0, h1, List.nil_append]
  · have h1 := reportedSubmitFailures_submitJobs svc 0 response.Job
    have h0 := hin.2
    unfold reportedSubmitFailures at h0 h1 ⊢
    rw [List.filterMap_append, h0, h1, List.nil_append]

/-- C8, at a concrete run: two jobs are leased, the submission of the first fails and
that of the second succeeds; both are submitted, in order, and exactly one failure is
reported, for the first job. -/
theorem submits_every_leased_job_witness :
    submittedJobs (RequestJobLeasesAndFillSpareClusterCapacity
        (Scenario.service Scenario.twoNodes [] (Scenario.queueOk Scenario.twoJobs)
          Scenario.firstSubmitFails)) = Scenario.twoJobs ∧
      reportedSubmitFailures (RequestJobLeasesAndFillSpareClusterCapacity
        (Scenario.service Scenario.twoNodes [] (Scenario.queueOk Scenario.twoJobs)
          Scenario.firstSubmitFails)) = [("job-a", "rejected")] :=
  ⟨(submits_every_leased_job
      (Scenario.service Scenario.twoNodes [] (Scenario.queueOk Scenario.twoJobs)
        Scenario.firstSubmitFails) { Job := Scenario.twoJobs } rfl).1,
   (submits_every_leased_job
      (Scenario.service Scenario.twoNodes [] (Scenario.queueOk Scenario.twoJobs)
        Scenario.firstSubmitFails) { Job := Scenario.twoJobs } rfl).2.trans (by decide)⟩

/-- C9: `requestJobs` returns the empty job list together with the error when the
`LeaseJobs` call returns an error, and the job list of the response with a nil error
otherwise; and when `requestJobs` returns an error, the cycle makes no `SubmitJob` call:
its only collaborator call is the lease request. -/
theorem requestJobs_error_stops_cycle (svc : JobLeaseService) (res : ComputeResources) :
    (requestJobs svc res).1
        = (match svc.QueueClient.LeaseJobs { ClusterID := svc.ClusterId, Resources := res } with
            | .error err => ([], some err)
            | .ok response => (response.Job, none)) ∧
      ((requestJobs svc
            (availableResource (svc.NodeLister LabelSelector.Everything).1
              (svc.PodLister LabelSelector.Everything).1)).1.2 ≠ none →
        submittedJobs (RequestJobLeasesAndFillSpareClusterCapacity svc) = [] ∧
        calls (RequestJobLeasesAndFillSpareClusterCapacity svc)
          = [Effect.LeaseJobs
              { ClusterID := svc.ClusterId,
                Resources := availableResource (svc.NodeLister LabelSelector.Everything).1
                  (svc.PodLister LabelSelector.Everything).1 }]) := by
  constructor
  · cases h : svc.QueueClient.LeaseJobs { ClusterID := svc.ClusterId, Resources := res } <;>
      simp only [requestJobs, h]
  · intro herr
    cases hl : svc.QueueClient.LeaseJobs
        { ClusterID := svc.ClusterId,
          Resources := availableResource (svc.NodeLister LabelSelector.Everything).1
            (svc.PodLister LabelSelector.Everything).1 } with
    | error err =>
      rw [RequestJobLeases_error svc err hl]
      cases (svc.NodeLister LabelSelector.Everything).2 <;>
        cases (svc.PodLister LabelSelector.Everything).2 <;> exact ⟨rfl, rfl⟩
    | ok response =>
      exfalso
      apply herr
      simp only [requestJobs, hl]

/-- C9, at a concrete run: the queue is unreachable; `requestJobs` returns no job and
the error, and the cycle submits nothing. -/
theorem requestJobs_error_stops_cycle_witness :
    (requestJobs (Scenario.service Scenario.twoNodes [] Scenario.queueDown (fun _ _ => none))
        [("cpu", 8)]).1 = ([], some "deadline exceeded") ∧
      submittedJobs (RequestJobLeasesAndFillSpareClusterCapacity
        (Scenario.service Scenario.twoNodes [] Scenario.queueDown (fun _ _ => none))) = [] :=
  ⟨(requestJobs_error_stops_cycle
      (Scenario.service Scenario.twoNodes [] Scenario.queueDown (fun _ _ => none))
      [("cpu", 8)]).1,
   ((requestJobs_error_stops_cycle
      (Scenario.service Scenario.twoNodes [] Scenario.queueDown (fun _ _ => none))
      [("cpu", 8)]).2 (by decide)).1⟩

/-! ## The subscription loop -/

/-- C10: source-error path. For every TTL and every answer of the store, if the loop
reaches its first fetch (the deadline has not been reached at the check that precedes
it) and that fetch returns an error, then `SubscribeToJobSetId` terminates (whatever the
iteration bound, if at least one) returning that error, `SetSubscriptionError` is
invoked for the pair `(queue, jobSetId)`, `ClearSubscriptionError` is never invoked,
and no call clears the subscribed flag. -/
theorem subscribe_source_error (now : Nat → Int) (service : EventsToJobService)
    (ttlSecs : Int) (err : String) (fuel : Nat)
    (hlive : now 1 < now 0 + ttlSecs)
    (hfetch : service.GetJobEventMessage 0 = .error err) :
    ∃ cs, SubscribeToJobSetId now service ttlSecs (fuel + 1)
          = some (some (SubscribeError.Source err), cs) ∧
      1 ≤ setSubscriptionErrorCalls service.queue service.jobSetId cs ∧
      clearSubscriptionErrorCalls cs = 0 ∧
      unsubscribeCalls cs = 0 := by
  refine ⟨[SubscriptionCall.GetJobEventMessage,
    SubscriptionCall.SetSubscriptionError service.queue service.jobSetId err,
    SubscriptionCall.Close], ?_, ?_, ?_, ?_⟩
  · have hnot : ¬ (now (0 + 1) ≥ now 0 + ttlSecs) := by
      simp only [Nat.zero_add, ge_iff_le, not_le]
      exact hlive
    simp only [SubscribeToJobSetId, pollLoop, hnot, if_false, hfetch]
  · simp [setSubscriptionErrorCalls, List.countP_cons]
  · simp [clearSubscriptionErrorCalls, List.countP_cons]
  · simp [unsubscribeCalls, List.countP_cons]

/-- C10, at a concrete run: the test's case, a TTL of 1 second and a source
that fails with `some error`, on a clock that stands still. -/
theorem subscribe_source_error_witness :
    ∃ cs, SubscribeToJobSetId Scenario.frozenClock Scenario.failingSource 1 (0 + 1)
          = some (some (SubscribeError.Source "some error"), cs) ∧
      1 ≤ setSubscriptionErrorCalls "somestring" "someJobSetId" cs ∧
      clearSubscriptionErrorCalls cs = 0 ∧
      unsubscribeCalls cs = 0 :=
  subscribe_source_error Scenario.frozenClock Scenario.failingSource 1 "some error" 0
    (by decide) rfl

end Armada

/-! ## Node maps and the pods on eligible nodes -/

namespace Armada

/-- Reading a map after the assignment `m[k] = v`. -/
theorem lookup_mapSet {α : Type} (m : List (String × α)) (k k' : String) (v : α) :
    (mapSet m k v).lookup k' = if k' = k then some v else m.lookup k' := by
  induction m with
  | nil =>
    by_cases h : k' = k
    · simp [mapSet, List.lookup, h]
    · have hb : (k' == k) = false := beq_false_of_ne h
      simp [mapSet, List.lookup, h, hb]
  | cons x xs ih =>
    obtain ⟨a, b⟩ := x
    by_cases hak : a = k
    · by_cases h : k' = k
      · simp [mapSet, List.lookup, hak, h]
      · have hb : (k' == k) = false := beq_false_of_ne h
        simp [mapSet, List.lookup, hak, h, hb]
    · by_cases h : k' = a
      · have hne : ¬ k' = k := fun e => hak (h.symm.trans e)
        simp [mapSet, List.lookup, hak, h, hne]
      · have hb : (k' == a) = false := beq_false_of_ne h
        simp [mapSet, List.lookup, hak, hb, ih]

/-- A key is present in the node map exactly when it was present before the loop or is
the name of one of the nodes. -/
theorem mapPresent_nodeMap (nodes : List Node) (m : List (String × Node)) (k : String) :
    mapPresent (nodes.foldl (fun m node => mapSet m node.Name node) m) k = true ↔
      mapPresent m k = true ∨ ∃ node ∈ nodes, node.Name = k := by
  induction nodes generalizing m with
  | nil => simp
  | cons n ns ih =>
    rw [List.foldl_cons, ih]
    unfold mapPresent
    rw [lookup_mapSet]
    by_cases h : k = n.Name
    · simp [h]
    · have h2 : ¬ n.Name = k := fun e => h e.symm
      simp [h, h2]

/-- The function `getAllAvailableProcessingNodes` is the filter by
`isAvailableProcessingNode`. -/
theorem getAllAvailableProcessingNodes_eq (nodes : List Node) :
    getAllAvailableProcessingNodes nodes = nodes.filter isAvailableProcessingNode := by
  unfold getAllAvailableProcessingNodes
  rw [foldl_append_if, List.nil_append]

/-- The function `getAllPodsOnNodes` is the filter by membership of the pod's node name
among the names of the nodes. -/
theorem getAllPodsOnNodes_eq (pods : List Pod) (nodes : List Node) :
    getAllPodsOnNodes pods nodes
      = pods.filter (fun pod => decide (∃ node ∈ nodes, node.Name = pod.Spec.NodeName)) := by
  unfold getAllPodsOnNodes
  simp only []
  rw [foldl_append_if, List.nil_append]
  apply List.filter_congr
  intro pod _
  have h := mapPresent_nodeMap nodes [] pod.Spec.NodeName
  have h0 : mapPresent ([] : List (String × Node)) pod.Spec.NodeName = false := rfl
  rw [h0] at h
  simp only [Bool.false_eq_true, false_or] at h
  by_cases hp : ∃ node ∈ nodes, node.Name = pod.Spec.NodeName
  · rw [decide_eq_true hp]
    exact h.mpr hp
  · rw [decide_eq_false hp]
    cases hm : mapPresent (nodes.foldl (fun m node => mapSet m node.Name node) [])
        pod.Spec.NodeName with
    | false => rfl
    | true => exact absurd (h.mp hm) hp

/-- The pods on the eligible nodes are the pods whose node name is the name of an
eligible node. -/
theorem podsOnProcessingNodes_eq (pods : List Pod) (nodes : List Node) :
    getAllPodsOnNodes pods (getAllAvailableProcessingNodes nodes)
      = pods.filter (fun pod => decide (∃ node ∈ nodes,
          isAvailableProcessingNode node = true ∧ node.Name = pod.Spec.NodeName)) := by
  rw [getAllPodsOnNodes_eq, getAllAvailableProcessingNodes_eq]
  apply List.filter_congr
  intro pod _
  apply decide_eq_decide.mpr
  constructor
  · rintro ⟨node, hmem, hname⟩
    rw [List.mem_filter] at hmem
    exact ⟨node, hmem.1, hmem.2, hname⟩
  · rintro ⟨node, hmem, havail, hname⟩
    exact ⟨node, List.mem_filter.mpr ⟨hmem, havail⟩, hname⟩

/-- The submission loop sends no lease request. -/
theorem leaseRequests_submitJobs (svc : JobLeaseService) (i : Nat) (jobs : List Job) :
    leaseRequests (submitJobs svc i jobs) = [] := by
  induction jobs generalizing i with
  | nil => rfl
  | cons job rest ih =>
    have ih2 := ih (i + 1)
    unfold leaseRequests at ih2 ⊢
    unfold submitJobs
    cases svc.JobSubmitter i job <;> simp [List.filterMap_append, List.filterMap_cons, ih2]

/-- The lease requests of a cycle: one, with the configured cluster id and the resource
vector computed from the two listings. -/
theorem leaseRequests_RequestJobLeases (svc : JobLeaseService) :
    leaseRequests (RequestJobLeasesAndFillSpareClusterCapacity svc)
      = [{ ClusterID := svc.ClusterId,
           Resources := availableResource (svc.NodeLister LabelSelector.Everything).1
             (svc.PodLister LabelSelector.Everything).1 }] := by
  cases hl : svc.QueueClient.LeaseJobs
      { ClusterID := svc.ClusterId,
        Resources := availableResource (svc.NodeLister LabelSelector.Everything).1
          (svc.PodLister LabelSelector.Everything).1 } with
  | error err =>
    rw [RequestJobLeases_error svc err hl]
    cases (svc.NodeLister LabelSelector.Everything).2 <;>
      cases (svc.PodLister LabelSelector.Everything).2 <;> rfl
  | ok response =>
    rw [RequestJobLeases_ok svc response hl]
    have h1 := leaseRequests_submitJobs svc 0 response.Job
    unfold leaseRequests at h1 ⊢
    rw [List.filterMap_append, h1, List.append_nil]
    cases (svc.NodeLister LabelSelector.Everything).2 <;>
      cases (svc.PodLister LabelSelector.Everything).2 <;> rfl

/-! ## Claims on the lease request -/

/-- C13: every run of `RequestJobLeasesAndFillSpareClusterCapacity` sends exactly one
`LeaseJobs` request, carrying the configured `ClusterId` and the resource vector
computed from whatever the two listings returned, whether or not a listing returned an
error and whatever that vector is. -/
theorem exactly_one_lease_request (svc : JobLeaseService) :
    leaseRequests (RequestJobLeasesAndFillSpareClusterCapacity svc)
        = [{ ClusterID := svc.ClusterId,
             Resources := availableResource (svc.NodeLister LabelSelector.Everything).1
               (svc.PodLister LabelSelector.Everything).1 }] ∧
      (leaseRequests (RequestJobLeasesAndFillSpareClusterCapacity svc)).length = 1 ∧
      (leaseRequests (RequestJobLeasesAndFillSpareClusterCapacity svc)).map
          (fun request => request.ClusterID) = [svc.ClusterId] := by
  rw [leaseRequests_RequestJobLeases]
  exact ⟨rfl, rfl, rfl⟩

/-- C14: `getAllPodsOnNodes` returns, in input order, exactly the pods whose
`Spec.NodeName` is the `Name` of at least one node of the given list; each such pod is
returned as often as it occurs in the input, however many nodes bear that name. -/
theorem getAllPodsOnNodes_selects_by_node_name (pods : List Pod) (nodes : List Node) :
    getAllPodsOnNodes pods nodes
        = pods.filter (fun pod => decide (∃ node ∈ nodes, node.Name = pod.Spec.NodeName)) ∧
      List.Sublist (getAllPodsOnNodes pods nodes) pods := by
  rw [getAllPodsOnNodes_eq]
  exact ⟨rfl, List.filter_sublist pods⟩

end Armada

/-! ## Arithmetic of resource vectors -/

namespace Armada

/-- Reading a resource vector after the assignment `a[k] = v`. -/
theorem get_mapSet (a : ComputeResources) (k k' : String) (v : Int) :
    ComputeResources.get (mapSet a k v) k' = if k' = k then v else ComputeResources.get a k' := by
  unfold ComputeResources.get
  rw [lookup_mapSet]
  by_cases h : k' = k
  · simp [h]
  · simp [h]

/-- One step of `Add`: the entry `kv` is added at its key, the other keys are untouched. -/
theorem get_Add_step (acc : ComputeResources) (kv : String × Int) (k : String) :
    ComputeResources.get
        (match acc.lookup kv.1 with
          | some existing => mapSet acc kv.1 (existing + kv.2)
          | none => mapSet acc kv.1 kv.2) k
      = ComputeResources.get acc k + (if kv.1 = k then kv.2 else 0) := by
  cases hl : acc.lookup kv.1 with
  | none =>
    simp only []
    rw [get_mapSet]
    by_cases h : k = kv.1
    · subst h
      simp [ComputeResources.get, hl]
    · have h2 : ¬ kv.1 = k := fun e => h e.symm
      simp [h, h2]
  | some existing =>
    simp only []
    rw [get_mapSet]
    by_cases h : k = kv.1
    · subst h
      simp [ComputeResources.get, hl]
    · have h2 : ¬ kv.1 = k := fun e => h e.symm
      simp [h, h2]

/-- The vector `a.Add b` holds, at each key, the value of `a` plus the entries of `b` for
that key. -/
theorem get_Add_entries (a b : ComputeResources) (k : String) :
    ComputeResources.get (a.Add b) k
      = ComputeResources.get a k +
        ((b.filter (fun kv => decide (kv.1 = k))).map Prod.snd).sum := by
  unfold ComputeResources.Add
  induction b generalizing a with
  | nil => simp
  | cons kv rest ih =>
    rw [List.foldl_cons, ih, get_Add_step]
    by_cases h : kv.1 = k
    · simp [List.filter_cons, h]
      ring
    · simp [List.filter_cons, h]

/-- In a map without duplicate keys, the entries for a key add up to the value read. -/
theorem entries_sum_eq_get (b : ComputeResources) (k : String)
    (hb : (b.map Prod.fst).Nodup) :
    ((b.filter (fun kv => decide (kv.1 = k))).map Prod.snd).sum = ComputeResources.get b k := by
  induction b with
  | nil => rfl
  | cons kv rest ih =>
    obtain ⟨a, v⟩ := kv
    rw [List.map_cons, List.nodup_cons] at hb
    by_cases h : a = k
    · have hnone : rest.filter (fun kv => decide (kv.1 = k)) = [] := by
        rw [List.filter_eq_nil_iff]
        intro x hx hk
        apply hb.1
        rw [h]
        have hk2 : x.1 = k := of_decide_eq_true hk
        rw [← hk2]
        exact List.mem_map.mpr ⟨x, hx, rfl⟩
      simp [List.filter_cons, h, hnone, ComputeResources.get, List.lookup]
    · have hb2 : (k == a) = false := beq_false_of_ne (fun e => h e.symm)
      simp only [List.filter_cons, h, decide_False, Bool.false_eq_true, if_false]
      rw [ih hb.2]
      simp [ComputeResources.get, List.lookup, hb2]

/-- The keys after the assignment `m[k] = v`. -/
theorem mem_keys_mapSet {α : Type} (m : List (String × α)) (k x : String) (v : α) :
    x ∈ (mapSet m k v).map Prod.fst ↔ x = k ∨ x ∈ m.map Prod.fst := by
  induction m with
  | nil => simp [mapSet]
  | cons y ys ih =>
    obtain ⟨a, b⟩ := y
    by_cases hak : a = k
    · simp [mapSet, hak]
    · simp only [mapSet, hak, if_false, List.map_cons, List.mem_cons, ih]
      tauto

/-- The assignment `m[k] = v` keeps the keys free of duplicates. -/
theorem nodup_keys_mapSet {α : Type} (m : List (String × α)) (k : String) (v : α)
    (hm : (m.map Prod.fst).Nodup) : ((mapSet m k v).map Prod.fst).Nodup := by
  induction m with
  | nil => simp [mapSet]
  | cons y ys ih =>
    obtain ⟨a, b⟩ := y
    rw [List.map_cons, List.nodup_cons] at hm
    by_cases hak : a = k
    · simp only [mapSet, hak, if_true, List.map_cons, List.nodup_cons]
      rw [← hak]
      exact hm
    · simp only [mapSet, hak, if_false, List.map_cons, List.nodup_cons]
      refine ⟨?_, ih hm.2⟩
      rw [mem_keys_mapSet]
      rintro (h | h)
      · exact hak h
      · exact hm.1 h

/-- The vector built by `FromResourceList` has no duplicate key. -/
theorem nodup_keys_FromResourceList (list : ResourceList) :
    ((FromResourceList list).map Prod.fst).Nodup := by
  unfold FromResourceList
  have gen : ∀ (l : ResourceList) (acc : ComputeResources), (acc.map Prod.fst).Nodup →
      ((l.foldl (fun acc kv => mapSet acc kv.1 kv.2) acc).map Prod.fst).Nodup := by
    intro l
    induction l with
    | nil => intro acc h; exact h
    | cons kv rest ih =>
      intro acc h
      rw [List.foldl_cons]
      exact ih _ (nodup_keys_mapSet acc kv.1 kv.2 h)
  exact gen list [] (by simp)

/-- Adding the vector of a resource list is pointwise addition. -/
theorem get_Add_FromResourceList (a : ComputeResources) (list : ResourceList) (k : String) :
    ComputeResources.get (a.Add (FromResourceList list)) k
      = ComputeResources.get a k + ComputeResources.get (FromResourceList list) k := by
  rw [get_Add_entries, entries_sum_eq_get _ _ (nodup_keys_FromResourceList list)]

/-- A loop that adds the vector of one resource list per element computes, at each key,
the initial value plus the sum of the values of the elements. -/
theorem get_foldl_Add {α : Type} (f : α → ResourceList) (l : List α)
    (init : ComputeResources) (k : String) :
    ComputeResources.get (l.foldl (fun acc x => acc.Add (FromResourceList (f x))) init) k
      = ComputeResources.get init k +
        (l.map (fun x => ComputeResources.get (FromResourceList (f x)) k)).sum := by
  induction l generalizing init with
  | nil => simp
  | cons x xs ih =>
    rw [List.foldl_cons, ih, get_Add_FromResourceList, List.map_cons, List.sum_cons]
    ring

/-- The total of the allocatable resources, key by key. -/
theorem get_calculateTotalResource (nodes : List Node) (k : String) :
    ComputeResources.get (calculateTotalResource nodes) k
      = (nodes.map (fun node =>
          ComputeResources.get (FromResourceList node.Status.Allocatable) k)).sum := by
  unfold calculateTotalResource
  simp only []
  rw [get_foldl_Add (fun node : Node => node.Status.Allocatable)]
  simp [ComputeResources.get]

/-- The pod loop of `calculateTotalResourceLimit`, key by key, from any accumulator. -/
theorem get_limit_loop (pods : List Pod) (init : ComputeResources) (k : String) :
    ComputeResources.get
        (pods.foldl (fun totalResources pod =>
          pod.Spec.Containers.foldl (fun totalResources container =>
            let containerResourceLimit := FromResourceList container.Resources.Limits
            totalResources.Add containerResourceLimit) totalResources) init) k
      = ComputeResources.get init k +
        (pods.map (fun pod => (pod.Spec.Containers.map (fun container =>
          ComputeResources.get (FromResourceList container.Resources.Limits) k)).sum)).sum := by
  induction pods generalizing init with
  | nil => simp
  | cons pod rest ih =>
    rw [List.foldl_cons, ih]
    simp only []
    rw [get_foldl_Add (fun container : Container => container.Resources.Limits),
      List.map_cons, List.sum_cons]
    ring

/-- The total of the container limits, key by key. -/
theorem get_calculateTotalResourceLimit (pods : List Pod) (k : String) :
    ComputeResources.get (calculateTotalResourceLimit pods) k
      = (pods.map (fun pod => (pod.Spec.Containers.map (fun container =>
          ComputeResources.get (FromResourceList container.Resources.Limits) k)).sum)).sum := by
  unfold calculateTotalResourceLimit
  rw [get_limit_loop]
  simp [ComputeResources.get]

end Armada

/-! ## Claims on the resource accounting -/

namespace Armada

/-- Assigning a key the map lacks adds the entry at the end. -/
theorem mapSet_new_key {α : Type} (m : List (String × α)) (k : String) (v : α)
    (hk : k ∉ m.map Prod.fst) : mapSet m k v = m ++ [(k, v)] := by
  induction m with
  | nil => rfl
  | cons y ys ih =>
    obtain ⟨a, b⟩ := y
    rw [List.map_cons, List.mem_cons, not_or] at hk
    have hak : ¬ a = k := fun e => hk.1 e.symm
    simp only [mapSet, hak, if_false, List.cons_append]
    rw [ih hk.2]

/-- On a resource list without duplicate keys, as a Go map is, `FromResourceList` returns
the entries of the list unchanged. -/
theorem FromResourceList_eq_self (list : ResourceList) (h : (list.map Prod.fst).Nodup) :
    FromResourceList list = list := by
  unfold FromResourceList
  have gen : ∀ (l : ResourceList) (acc : ComputeResources),
      ((acc ++ l).map Prod.fst).Nodup →
      l.foldl (fun acc kv => mapSet acc kv.1 kv.2) acc = acc ++ l := by
    intro l
    induction l with
    | nil => intro acc _; simp
    | cons kv rest ih =>
      intro acc hnd
      have hk : kv.1 ∉ acc.map Prod.fst := by
        rw [List.map_append, List.map_cons, List.nodup_append] at hnd
        intro hmem
        exact hnd.2.2 hmem (List.mem_cons_self _ _)
      rw [List.foldl_cons, mapSet_new_key acc kv.1 kv.2 hk, ih]
      · simp
      · simpa using hnd
  simpa using gen list [] (by simpa using h)

/-- C15: at every resource name, `calculateTotalResource` is the sum over the nodes of the
node's `Status.Allocatable`, and `calculateTotalResourceLimit` is the sum, over the pods
and over each pod's `Spec.Containers`, of the container's `Resources.Limits`; resource
requests and init containers contribute nothing (removing them leaves the result
unchanged), and both functions return the empty vector on the empty list. -/
theorem totals_are_pointwise_sums :
    (∀ (nodes : List Node) (k : String),
        ComputeResources.get (calculateTotalResource nodes) k
          = (nodes.map (fun node =>
              ComputeResources.get (FromResourceList node.Status.Allocatable) k)).sum) ∧
      (∀ (pods : List Pod) (k : String),
        ComputeResources.get (calculateTotalResourceLimit pods) k
          = (pods.map (fun pod => (pod.Spec.Containers.map (fun container =>
              ComputeResources.get (FromResourceList container.Resources.Limits) k)).sum)).sum) ∧
      (∀ pods : List Pod,
        calculateTotalResourceLimit (pods.map withoutRequestsAndInit)
          = calculateTotalResourceLimit pods) ∧
      calculateTotalResource [] = [] ∧
      calculateTotalResourceLimit [] = [] := by
  refine ⟨get_calculateTotalResource, get_calculateTotalResourceLimit, ?_, rfl, rfl⟩
  intro pods
  simp only [calculateTotalResourceLimit, withoutRequestsAndInit, List.foldl_map]

/-- C16: a node with `Unschedulable = false` whose taints all have an effect other than
`NoSchedule` is available: `isAvailableProcessingNode` returns true, the node is kept by
`getAllAvailableProcessingNodes` wherever it stands in the node list, and its allocatable
resources are part of the total capacity at every resource name. -/
theorem node_without_NoSchedule_taint_is_capacity (node : Node) (before after : List Node)
    (hsched : node.Spec.Unschedulable = false)
    (htaints : ∀ t ∈ node.Spec.Taints, t.Effect ≠ TaintEffectNoSchedule) :
    isAvailableProcessingNode node = true ∧
      getAllAvailableProcessingNodes (before ++ node :: after)
        = getAllAvailableProcessingNodes before ++
            node :: getAllAvailableProcessingNodes after ∧
      ∀ k : String,
        ComputeResources.get
            (calculateTotalResource (getAllAvailableProcessingNodes (before ++ node :: after))) k
          = ComputeResources.get
              (calculateTotalResource (getAllAvailableProcessingNodes before)) k +
            ComputeResources.get (FromResourceList node.Status.Allocatable) k +
            ComputeResources.get
              (calculateTotalResource (getAllAvailableProcessingNodes after)) k := by
  have havail : isAvailableProcessingNode node = true :=
    (isAvailableProcessingNode_eq_true_iff node).mpr ⟨hsched, htaints⟩
  have hsplit : getAllAvailableProcessingNodes (before ++ node :: after)
      = getAllAvailableProcessingNodes before ++
          node :: getAllAvailableProcessingNodes after := by
    simp only [getAllAvailableProcessingNodes_eq, List.filter_append, List.filter_cons, havail,
      if_true]
  refine ⟨havail, hsplit, ?_⟩
  intro k
  rw [hsplit]
  simp only [get_calculateTotalResource, List.map_append, List.map_cons, List.sum_append,
    List.sum_cons]
  ring

/-- C16, at a concrete node: a schedulable node with a `NoExecute` and a
`PreferNoSchedule` taint, listed after a cordoned node, is available and its `cpu: 4`
is the capacity. -/
theorem node_without_NoSchedule_taint_is_capacity_witness :
    isAvailableProcessingNode Scenario.softTaintedNode = true ∧
      getAllAvailableProcessingNodes ([Scenario.cordonedNode] ++ Scenario.softTaintedNode :: [])
        = [Scenario.softTaintedNode] ∧
      ComputeResources.get
          (calculateTotalResource (getAllAvailableProcessingNodes
            ([Scenario.cordonedNode] ++ Scenario.softTaintedNode :: []))) "cpu" = 4 :=
  ⟨(node_without_NoSchedule_taint_is_capacity Scenario.softTaintedNode
      [Scenario.cordonedNode] [] rfl (by decide)).1,
   (node_without_NoSchedule_taint_is_capacity Scenario.softTaintedNode
      [Scenario.cordonedNode] [] rfl (by decide)).2.1.trans (by decide),
   ((node_without_NoSchedule_taint_is_capacity Scenario.softTaintedNode
      [Scenario.cordonedNode] [] rfl (by decide)).2.2 "cpu").trans (by decide)⟩

/-- C17: the resource vector of the lease request depends on the pods only through the
sub-list of the pods whose `Spec.NodeName` names an eligible node: two runs over the same
nodes whose pod lists agree on that sub-list compute the same vector and send the same
requested resources. -/
theorem lease_request_depends_on_eligible_pods_only (svc₁ svc₂ : JobLeaseService)
    (hnodes : (svc₁.NodeLister LabelSelector.Everything).1
      = (svc₂.NodeLister LabelSelector.Everything).1)
    (hpods :
      (svc₁.PodLister LabelSelector.Everything).1.filter (fun pod =>
          decide (∃ node ∈ (svc₁.NodeLister LabelSelector.Everything).1,
            isAvailableProcessingNode node = true ∧ node.Name = pod.Spec.NodeName))
        = (svc₂.PodLister LabelSelector.Everything).1.filter (fun pod =>
          decide (∃ node ∈ (svc₁.NodeLister LabelSelector.Everything).1,
            isAvailableProcessingNode node = true ∧ node.Name = pod.Spec.NodeName))) :
    availableResource (svc₁.NodeLister LabelSelector.Everything).1
          (svc₁.PodLister LabelSelector.Everything).1
        = availableResource (svc₂.NodeLister LabelSelector.Everything).1
          (svc₂.PodLister LabelSelector.Everything).1 ∧
      (leaseRequests (RequestJobLeasesAndFillSpareClusterCapacity svc₁)).map
          (fun request => request.Resources)
        = (leaseRequests (RequestJobLeasesAndFillSpareClusterCapacity svc₂)).map
          (fun request => request.Resources) := by
  have hres : availableResource (svc₁.NodeLister LabelSelector.Everything).1
        (svc₁.PodLister LabelSelector.Everything).1
      = availableResource (svc₂.NodeLister LabelSelector.Everything).1
        (svc₂.PodLister LabelSelector.Everything).1 := by
    rw [← hnodes]
    simp only [availableResource, podsOnProcessingNodes_eq, hpods]
  refine ⟨hres, ?_⟩
  rw [leaseRequests_RequestJobLeases, leaseRequests_RequestJobLeases]
  simp only [List.map_cons, List.map_nil, hres]

/-- C17, at a concrete run: adding an unassigned pod and a pod on a cordoned node, both
terminal, to the pods of the two eligible nodes leaves the requested resources
unchanged. -/
theorem lease_request_depends_on_eligible_pods_only_witness :
    (leaseRequests (RequestJobLeasesAndFillSpareClusterCapacity
        (Scenario.service (Scenario.twoNodes ++ [Scenario.cordonedNode])
          [Scenario.runningPod, Scenario.succeededPod]
          (Scenario.queueOk []) (fun _ _ => none)))).map (fun request => request.Resources)
      = (leaseRequests (RequestJobLeasesAndFillSpareClusterCapacity
        (Scenario.service (Scenario.twoNodes ++ [Scenario.cordonedNode])
          [Scenario.unassignedPod, Scenario.runningPod, Scenario.cordonedPod,
            Scenario.succeededPod]
          (Scenario.queueOk []) (fun _ _ => none)))).map (fun request => request.Resources) :=
  (lease_request_depends_on_eligible_pods_only
    (Scenario.service (Scenario.twoNodes ++ [Scenario.cordonedNode])
      [Scenario.runningPod, Scenario.succeededPod]
      (Scenario.queueOk []) (fun _ _ => none))
    (Scenario.service (Scenario.twoNodes ++ [Scenario.cordonedNode])
      [Scenario.unassignedPod, Scenario.runningPod, Scenario.cordonedPod,
        Scenario.succeededPod]
      (Scenario.queueOk []) (fun _ _ => none))
    rfl (by decide)).2

end Armada

/-! ## The subscription loop: unsubscribe and expiry -/

namespace Armada

/-- The iterations that found the job set subscribed never call `SetSubscriptionError`. -/
theorem setSubscriptionErrorCalls_iterationCalls (queue jobSetId q j : String) (n : Nat) :
    setSubscriptionErrorCalls q j
      (iterationCalls queue jobSetId n ++ [SubscriptionCall.Close]) = 0 := by
  induction n with
  | zero => simp [iterationCalls, setSubscriptionErrorCalls, List.countP_cons]
  | succ n ih =>
    unfold setSubscriptionErrorCalls at ih ⊢
    simp only [iterationCalls, List.cons_append, List.nil_append, List.countP_cons, ih]
    simp

/-- Each iteration that found the job set subscribed calls `ClearSubscriptionError` once. -/
theorem clearSubscriptionErrorCalls_iterationCalls (queue jobSetId : String) (n : Nat) :
    clearSubscriptionErrorCalls
      (iterationCalls queue jobSetId n ++ [SubscriptionCall.Close]) = n := by
  induction n with
  | zero => simp [iterationCalls, clearSubscriptionErrorCalls, List.countP_cons]
  | succ n ih =>
    unfold clearSubscriptionErrorCalls at ih ⊢
    simp only [iterationCalls, List.cons_append, List.nil_append, List.countP_cons, ih]
    simp

/-- The poll loop, started at iteration `k` with `n` iterations left before the clock
reaches the deadline, on a source that always returns an event and a store that always
reports the job set as subscribed: it runs the `n` iterations and then expires. -/
theorem pollLoop_expires (now : Nat → Int) (service : EventsToJobService) (deadline : Int)
    (hsrc : ∀ k, ∃ msg, service.GetJobEventMessage k = .ok msg)
    (hsub : ∀ k, service.IsJobSetSubscribed k service.queue service.jobSetId = true)
    (n : Nat) :
    ∀ (k fuel : Nat), (∀ j, k ≤ j → j < k + n → now (j + 1) < deadline) →
      now (k + n + 1) ≥ deadline → n + 1 ≤ fuel →
      pollLoop now service deadline fuel k
        = some (some SubscribeError.Timeout,
            iterationCalls service.queue service.jobSetId n ++ [SubscriptionCall.Close]) := by
  induction n with
  | zero =>
    intro k fuel _ hK hfuel
    obtain ⟨f, rfl⟩ : ∃ f, fuel = f + 1 := ⟨fuel - 1, by omega⟩
    have hK2 : now (k + 1) ≥ deadline := by simpa using hK
    simp only [pollLoop, hK2, if_true, iterationCalls, List.nil_append]
  | succ n ih =>
    intro k fuel hbefore hK hfuel
    obtain ⟨f, rfl⟩ : ∃ f, fuel = f + 1 := ⟨fuel - 1, by omega⟩
    have hlive : ¬ (now (k + 1) ≥ deadline) := by
      have := hbefore k (Nat.le_refl k) (by omega)
      simpa using this
    obtain ⟨msg, hmsg⟩ := hsrc k
    have hrec := ih (k + 1) f
      (fun j hj1 hj2 => hbefore j (by omega) (by omega))
      (by
        have e : k + 1 + n + 1 = k + (n + 1) + 1 := by omega
        rw [e]
        exact hK)
      (by omega)
    simp only [pollLoop, hlive, if_false, hmsg, hsub k, if_true, hrec, Option.map_some',
      iterationCalls, List.append_assoc]

/-- C11: unsubscribe path. If the loop receives a first event (the deadline has not been
reached at the check that precedes the first fetch), the event source always returns a
valid event, and the store reports the job set as not subscribed after the first event,
then `SubscribeToJobSetId` terminates (whatever the iteration bound, if at least one)
with a nil error, after exactly one fetch; `ClearSubscriptionError` is invoked and
`SetSubscriptionError` is never invoked, for any pair. -/
theorem subscribe_unsubscribed (now : Nat → Int) (service : EventsToJobService)
    (ttlSecs : Int) (fuel : Nat)
    (hlive : now 1 < now 0 + ttlSecs)
    (hsrc : ∀ k, ∃ msg, service.GetJobEventMessage k = .ok msg)
    (hleft : service.IsJobSetSubscribed 0 service.queue service.jobSetId = false) :
    ∃ cs, SubscribeToJobSetId now service ttlSecs (fuel + 1) = some (none, cs) ∧
      cs = [SubscriptionCall.GetJobEventMessage,
            SubscriptionCall.ClearSubscriptionError service.queue service.jobSetId,
            SubscriptionCall.IsJobSetSubscribed service.queue service.jobSetId,
            SubscriptionCall.Close] ∧
      1 ≤ clearSubscriptionErrorCalls cs ∧
      ∀ q j, setSubscriptionErrorCalls q j cs = 0 := by
  obtain ⟨msg, hmsg⟩ := hsrc 0
  have hnot : ¬ (now (0 + 1) ≥ now 0 + ttlSecs) := by
    simp only [Nat.zero_add, ge_iff_le, not_le]
    exact hlive
  refine ⟨_, ?_, rfl, ?_, ?_⟩
  · simp only [SubscribeToJobSetId, pollLoop, hnot, if_false, hmsg, hleft, Bool.false_eq_true]
  · simp [clearSubscriptionErrorCalls, List.countP_cons]
  · intro q j
    simp [setSubscriptionErrorCalls, List.countP_cons]

/-- C11, at a concrete run: the test's case, a TTL of 1 second, a source that
always returns an event and a store that reports the job set as not subscribed, on a
clock that stands still. -/
theorem subscribe_unsubscribed_witness :
    ∃ cs, SubscribeToJobSetId Scenario.frozenClock Scenario.leavingSubscriber 1 (0 + 1)
          = some (none, cs) ∧
      cs = [SubscriptionCall.GetJobEventMessage,
            SubscriptionCall.ClearSubscriptionError "somestring" "someJobSetId",
            SubscriptionCall.IsJobSetSubscribed "somestring" "someJobSetId",
            SubscriptionCall.Close] ∧
      1 ≤ clearSubscriptionErrorCalls cs ∧
      ∀ q j, setSubscriptionErrorCalls q j cs = 0 :=
  subscribe_unsubscribed Scenario.frozenClock Scenario.leavingSubscriber 1 0
    (by decide) (fun _ => ⟨_, rfl⟩) rfl

/-- C12 (as stated, it fails): with a TTL of 0 seconds, an event source that always
returns a valid event and a store that always reports the job set as subscribed,
`SubscribeToJobSetId` returns the timeout error without having fetched an event, so
`ClearSubscriptionError` is not invoked at all. -/
theorem subscribe_zero_ttl_expires_without_clear :
    (∀ k, Scenario.steadySubscriber.GetJobEventMessage k = .ok { Id := "" }) ∧
      (∀ k q j, Scenario.steadySubscriber.IsJobSetSubscribed k q j = true) ∧
      SubscribeToJobSetId Scenario.frozenClock Scenario.steadySubscriber 0 10
        = some (some SubscribeError.Timeout, [SubscriptionCall.Close]) ∧
      clearSubscriptionErrorCalls [SubscriptionCall.Close] = 0 :=
  ⟨fun _ => rfl, fun _ _ _ => rfl, by decide, by decide⟩

/-- C12 (amended): for every TTL of `T` seconds, if the event source always returns a
valid event, the store always reports the job set as subscribed, and the clock reaches
`start + T` at some deadline check, then `SubscribeToJobSetId` terminates at the first
check `K` whose clock reading is at or after `start + T`, hence no earlier than `T`
seconds after start, returning the timeout error, which is distinct from every source
error; `SetSubscriptionError` is never invoked, and `ClearSubscriptionError` is invoked
once per iteration before that check, hence at least once when the first check comes
before the deadline. The events that arrive do not move the deadline. -/
theorem subscribe_expires (now : Nat → Int) (service : EventsToJobService) (T : Int)
    (hsrc : ∀ k, ∃ msg, service.GetJobEventMessage k = .ok msg)
    (hsub : ∀ k, service.IsJobSetSubscribed k service.queue service.jobSetId = true)
    (hreach : ∃ k, now (k + 1) ≥ now 0 + T) :
    ∃ (K : Nat) (cs : List SubscriptionCall),
      (∀ fuel, K + 1 ≤ fuel →
        SubscribeToJobSetId now service T fuel = some (some SubscribeError.Timeout, cs)) ∧
      now (K + 1) ≥ now 0 + T ∧
      (∀ j, j < K → now (j + 1) < now 0 + T) ∧
      (∀ err, SubscribeError.Timeout ≠ SubscribeError.Source err) ∧
      (∀ q j, setSubscriptionErrorCalls q j cs = 0) ∧
      clearSubscriptionErrorCalls cs = K ∧
      (now 1 < now 0 + T → 1 ≤ clearSubscriptionErrorCalls cs) := by
  classical
  refine ⟨Nat.find hreach,
    iterationCalls service.queue service.jobSetId (Nat.find hreach) ++ [SubscriptionCall.Close],
    ?_, Nat.find_spec hreach, ?_, ?_, ?_, ?_, ?_⟩
  · intro fuel hfuel
    unfold SubscribeToJobSetId
    apply pollLoop_expires now service (now 0 + T) hsrc hsub (Nat.find hreach) 0 fuel
    · intro j _ hj
      have := Nat.find_min hreach (by omega : j < Nat.find hreach)
      simpa using this
    · simpa using Nat.find_spec hreach
    · exact hfuel
  · intro j hj
    have := Nat.find_min hreach hj
    simpa using this
  · intro err h
    cases h
  · intro q j
    exact setSubscriptionErrorCalls_iterationCalls _ _ q j _
  · exact clearSubscriptionErrorCalls_iterationCalls _ _ _
  · intro hfirst
    rw [clearSubscriptionErrorCalls_iterationCalls]
    by_contra hzero
    have h0 : Nat.find hreach = 0 := by omega
    have hspec := Nat.find_spec hreach
    rw [h0] at hspec
    have : now 1 ≥ now 0 + T := by simpa using hspec
    omega

/-- C12 (amended), at a concrete run: the test's case, a TTL of 1 second with a source
that always returns an event and a store that always reports the job set as subscribed,
on a clock that advances by half a second per reading: one event is fetched, then the
loop expires. -/
theorem subscribe_expires_witness :
    (∃ (K : Nat) (cs : List SubscriptionCall),
      (∀ fuel, K + 1 ≤ fuel →
        SubscribeToJobSetId Scenario.tickingClock Scenario.steadySubscriber 1 fuel
          = some (some SubscribeError.Timeout, cs)) ∧
      Scenario.tickingClock (K + 1) ≥ Scenario.tickingClock 0 + 1 ∧
      (∀ j, j < K → Scenario.tickingClock (j + 1) < Scenario.tickingClock 0 + 1) ∧
      (∀ err, SubscribeError.Timeout ≠ SubscribeError.Source err) ∧
      (∀ q j, setSubscriptionErrorCalls q j cs = 0) ∧
      clearSubscriptionErrorCalls cs = K ∧
      (Scenario.tickingClock 1 < Scenario.tickingClock 0 + 1 →
        1 ≤ clearSubscriptionErrorCalls cs)) ∧
      SubscribeToJobSetId Scenario.tickingClock Scenario.steadySubscriber 1 5
        = some (some SubscribeError.Timeout,
            [SubscriptionCall.GetJobEventMessage,
             SubscriptionCall.ClearSubscriptionError "somestring" "someJobSetId",
             SubscriptionCall.IsJobSetSubscribed "somestring" "someJobSetId",
             SubscriptionCall.Close]) :=
  ⟨subscribe_expires Scenario.tickingClock Scenario.steadySubscriber 1
      (fun _ => ⟨_, rfl⟩) (fun _ => rfl) ⟨1, by decide⟩,
   by decide⟩

end Armada
